import Mathlib

/-!
Verification of the Solcial client transaction layer, a shallow embedding of
`src/Solcial/src/Social.jsx`.

The JavaScript code drives RPC calls against a Solana endpoint.  Every RPC
interaction (blockhash fetch, simulation, send, transaction-status fetch, the
bridge HTTP API, wallet balance reads) is modelled by an environment that
supplies the observed outcome of the call: `Except JsError v` for a call that
may throw, so that the control flow of the wrappers (retry loops, try/catch
dispatch on error messages) is translated literally and can be proved about.
-/

namespace Solcial

/-- `pat` is an initial segment of `s` (on character lists). -/
def charsStartWith : List Char → List Char → Bool
  | _, [] => true
  | [], _ :: _ => false
  | c :: cs, p :: ps => decide (c = p) && charsStartWith cs ps

/-- `pat` occurs contiguously somewhere in `s` (on character lists). -/
def charsContain : List Char → List Char → Bool
  | [], pat => charsStartWith [] pat
  | c :: rest, pat => charsStartWith (c :: rest) pat || charsContain rest pat

/-- JS `String.prototype.includes`: `pat` occurs as a contiguous substring of
`s`. -/
def containsSubstr (s pat : String) : Bool :=
  charsContain s.data pat.data

/-- A JavaScript error value: its `message`, matched on by the retry wrappers,
and its `name` (checked against "SendTransactionError" in the send loop). -/
structure JsError where
  message : String
  name : String
deriving Repr, DecidableEq

/-- Guard of the retry branch of `withRetry` (Social.jsx line 71):
the message mentions HTTP 429 or rate limiting. -/
def rateLimitHit (msg : String) : Bool :=
  containsSubstr msg "429" || containsSubstr msg "Too Many Requests"

/-- Result of a JS async function: a resolved value, a thrown error, or the
implicit `undefined` produced when a loop body falls through without
returning. -/
inductive RetryOutcome (α : Type) where
  | ok (a : α)
  | thrown (e : JsError)
  | undef
deriving Repr, DecidableEq

/-- Loop of `withRetry` (Social.jsx lines 66-81).  `fn i` is the outcome of the
`i`-th invocation of the wrapped function.  The fuel argument is the number of
loop iterations still allowed (`maxRetries - attempt + 1` at the top call);
the result carries the outcome, the number of invocations of `fn`, and the
list of backoff delays awaited between attempts.  `jitter i` stands for the
`Math.random() * 100` sample added on attempt `i`. -/
def withRetryAux {α : Type} (fn : Nat → Except JsError α) (maxRetries baseDelay : Nat)
    (jitter : Nat → Nat) : Nat → Nat → RetryOutcome α × Nat × List Nat
  | 0, _ => (.undef, 0, [])
  | fuel + 1, attempt =>
    match fn attempt with
    | .ok a => (.ok a, 1, [])
    | .error e =>
      if rateLimitHit e.message then
        if attempt = maxRetries then
          (.thrown ⟨"Max retries reached due to rate limiting", "Error"⟩, 1, [])
        else
          let r := withRetryAux fn maxRetries baseDelay jitter fuel (attempt + 1)
          (r.1, r.2.1 + 1, (baseDelay * 2 ^ (attempt - 1) + jitter attempt) :: r.2.2)
      else (.thrown e, 1, [])

/-- `withRetry(fn, maxRetries, baseDelay)` of Social.jsx lines 66-81 (the JS
defaults are `maxRetries = 5`, `baseDelay = 1000`). -/
def withRetry {α : Type} (fn : Nat → Except JsError α) (maxRetries baseDelay : Nat)
    (jitter : Nat → Nat) : RetryOutcome α × Nat × List Nat :=
  withRetryAux fn maxRetries baseDelay jitter maxRetries 1

/-- Substring guard of the inner confirmation handler of
`sendAndConfirmWithRetry` (Social.jsx lines 154-156). -/
def confirmRecoverable (msg : String) : Bool :=
  containsSubstr msg "WrongSize" || containsSubstr msg "Invalid param" ||
    containsSubstr msg "failed to get transaction"

/-- Substring guard of the second branch of the outer catch handler
(Social.jsx lines 182-184). -/
def rpcConfirmGlitch (msg : String) : Bool :=
  containsSubstr msg "Invalid params: invalid type: map, expected a string" ||
    containsSubstr msg "WrongSize" || containsSubstr msg "failed to get transaction"

/-- Substring guard of the blockhash-expiry branch of the outer catch handler
(Social.jsx line 218). -/
def blockhashExpired (msg : String) : Bool :=
  containsSubstr msg "Blockhash not found" ||
    containsSubstr msg "TransactionExpiredBlockheightExceededError"

/-- JS truthiness of the `finalSignature` variable: `null` and the empty
string are falsy. -/
def truthyStr : Option String → Bool
  | none => false
  | some s => decide (s ≠ "")

/-- Value resolved by a successful `provider.sendAndConfirm`: the signature,
whether `typeof signature === "string"` held, and the `typeof` text when it
did not (Social.jsx lines 124-136). -/
structure SendOk where
  sig : String
  isStr : Bool
  tyName : String
deriving Repr, DecidableEq

/-- Environment of one iteration of the send loop of
`sendAndConfirmWithRetry`: the observed outcome of each RPC interaction the
iteration may perform.  `sim` is the simulation: a thrown error, or the
serialized `value.err` when the RPC answered (`none` when the simulation
reported no error).  `getTx` and `getTxAlready` are `getTransaction` results:
`none` models a null status, `some me` a status whose `meta.err` is `me`.
`alreadySig` is the encoding of `transaction.signatures[0]` read by the
already-processed branch, and `logsText` the serialized logs fetched by
`err.getLogs`. -/
structure AttemptEnv where
  blockhash : Except JsError Unit
  sim : Except JsError (Option String)
  send : Except JsError SendOk
  getTx : Except JsError (Option (Option String))
  alreadySig : String
  getTxAlready : Except JsError (Option (Option String))
  logsText : String

/-- Effect of one loop iteration on the loop: return a signature, throw, or
fall to the next iteration carrying the persistent `finalSignature`. -/
inductive StepRes where
  | ret (s : String)
  | thrown (e : JsError)
  | cont (fs : Option String)
deriving Repr, DecidableEq

/-- Observable activity of one loop iteration: attempt number, which RPC
calls were issued, how the simulation ended, and how many sends happened. -/
structure AttemptTrace where
  att : Nat
  bhCalled : Bool
  simCalled : Bool
  simNoErr : Bool
  simThrew : Bool
  sends : Nat
  getTxCalled : Bool
  alreadyChecked : Bool
deriving Repr, DecidableEq

/-- Number of distinct RPC operations invoked by the iteration, counting
each of the five modeled call sites once: the blockhash fetch, the
simulation, the send, and the two transaction-status fetches.  Each invoked
operation issues at least one request to the endpoint; the `withRetry`
wrappers (up to five requests per operation under rate limiting), the
confirmation traffic inside `provider.sendAndConfirm`, and `err.getLogs` are
not counted, so the number of requests the iteration issues is bounded
below, never above, by this count. -/
def AttemptTrace.rpcOps (t : AttemptTrace) : Nat :=
  (if t.bhCalled then 1 else 0) + (if t.simCalled then 1 else 0) + t.sends +
    (if t.getTxCalled then 1 else 0) + (if t.alreadyChecked then 1 else 0)

/-- The outer catch handler of `sendAndConfirmWithRetry` (Social.jsx lines
169-233), dispatching on the error message, in source order: the
"Invalid arguments" branch, the RPC-confirmation-glitch branch, the
already-processed branch (which re-fetches the transaction status), the
blockhash-expiry branch (which continues unconditionally), the
`SendTransactionError` branch, and the final rethrow.  The returned Bool
records whether the already-processed status fetch was issued. -/
def outerCatch (env : AttemptEnv) (attempt maxRetries : Nat) (fs : Option String)
    (e : JsError) : StepRes × Bool :=
  if containsSubstr e.message "Invalid arguments" then
    if attempt = maxRetries then
      (.thrown ⟨"Invalid arguments error: " ++ e.message ++ ". Logs: " ++ env.logsText,
        "Error"⟩, false)
    else (.cont fs, false)
  else if rpcConfirmGlitch e.message then
    if truthyStr fs then (.ret (fs.getD ""), false)
    else if attempt < maxRetries then (.cont fs, false)
    else (.thrown ⟨"Max retries reached: " ++ e.message, "Error"⟩, false)
  else if containsSubstr e.message "This transaction has already been processed" then
    match env.getTxAlready with
    | .ok (some none) => (.ret env.alreadySig, true)
    | _ => (.thrown ⟨"Transaction already processed but failed or not found", "Error"⟩, true)
  else if blockhashExpired e.message then (.cont fs, false)
  else if e.name = "SendTransactionError" then
    if attempt = maxRetries then
      (.thrown ⟨"Transaction failed after " ++ toString maxRetries ++ " attempts: " ++
        e.message ++ ". Logs: " ++ env.logsText, "Error"⟩, false)
    else (.cont fs, false)
  else (.thrown e, false)

/-- Error thrown, if any, by the inner confirmation `try` that follows a
successful send (Social.jsx lines 133-151): the signature type check, a
throwing `getTransaction`, or a status whose `meta.err` is set.  A null
status only logs a warning. -/
def confirmThrown (env : AttemptEnv) (sOk : SendOk) : Option JsError :=
  if sOk.isStr = false then
    some ⟨"Invalid signature type: expected string, got " ++ sOk.tyName, "Error"⟩
  else
    match env.getTx with
    | .error e => some e
    | .ok none => none
    | .ok (some (some metaErr)) => some ⟨"Transaction failed: " ++ metaErr, "Error"⟩
    | .ok (some none) => none

/-- Send-and-confirm phase of one loop iteration (Social.jsx lines 124-167),
entered after the simulation phase with `simNoErr` recording whether the
simulation reported no error and `simThrew` whether the simulation call
itself threw.  A confirmation error matching `confirmRecoverable` returns the
signature; otherwise a truthy `finalSignature` (just set to the signature) is
returned; otherwise the error falls to the outer catch handler. -/
def afterSim (env : AttemptEnv) (attempt maxRetries : Nat) (fs : Option String)
    (simNoErr simThrew : Bool) : StepRes × AttemptTrace :=
  match env.send with
  | .error e =>
    let oc := outerCatch env attempt maxRetries fs e
    (oc.1, ⟨attempt, true, true, simNoErr, simThrew, 1, false, oc.2⟩)
  | .ok sOk =>
    match confirmThrown env sOk with
    | none => (.ret sOk.sig, ⟨attempt, true, true, simNoErr, simThrew, 1, sOk.isStr, false⟩)
    | some ce =>
      if confirmRecoverable ce.message then
        (.ret sOk.sig, ⟨attempt, true, true, simNoErr, simThrew, 1, sOk.isStr, false⟩)
      else if truthyStr (some sOk.sig) then
        (.ret sOk.sig, ⟨attempt, true, true, simNoErr, simThrew, 1, sOk.isStr, false⟩)
      else
        let oc := outerCatch env attempt maxRetries (some sOk.sig) ce
        (oc.1, ⟨attempt, true, true, simNoErr, simThrew, 1, sOk.isStr, oc.2⟩)

/-- One iteration of the send loop (Social.jsx lines 87-233): blockhash
fetch, simulation, then send and confirmation.  A simulation that returns an
error result retries on a non-final attempt; on the final attempt the
line-109 "Simulation failed" throw is caught by the simulation catch itself
(line 115), which falls through to the send.  A throwing simulation call
likewise retries on a non-final attempt and falls through to the send on the
final one.  Hence on the final attempt the send proceeds regardless of the
simulation outcome. -/
def stepAttempt (env : AttemptEnv) (attempt maxRetries : Nat) (fs : Option String) :
    StepRes × AttemptTrace :=
  match env.blockhash with
  | .error e =>
    let oc := outerCatch env attempt maxRetries fs e
    (oc.1, ⟨attempt, true, false, false, false, 0, false, oc.2⟩)
  | .ok _ =>
    match env.sim with
    | .ok (some _) =>
      if attempt = maxRetries then afterSim env attempt maxRetries fs false false
      else (.cont fs, ⟨attempt, true, true, false, false, 0, false, false⟩)
    | .error _ =>
      if attempt = maxRetries then afterSim env attempt maxRetries fs false true
      else (.cont fs, ⟨attempt, true, true, false, true, 0, false, false⟩)
    | .ok none => afterSim env attempt maxRetries fs true false

/-- Overall result of `sendAndConfirmWithRetry`: a signature, a thrown error,
or the implicit `undefined` when the loop is exited past `maxRetries`. -/
inductive SendOutcome where
  | sig (s : String)
  | thrown (e : JsError)
  | undef
deriving Repr, DecidableEq

/-- The send loop from a given iteration on: `envs i` is the environment of
iteration `i`, fuel is the number of iterations still allowed, and `fs` the
persistent `finalSignature`.  Collects the outcome and the iteration
traces. -/
def runFrom (envs : Nat → AttemptEnv) (maxRetries : Nat) :
    Nat → Nat → Option String → SendOutcome × List AttemptTrace
  | 0, _, _ => (.undef, [])
  | fuel + 1, attempt, fs =>
    let st := stepAttempt (envs attempt) attempt maxRetries fs
    match st.1 with
    | .ret s => (.sig s, [st.2])
    | .thrown e => (.thrown e, [st.2])
    | .cont fs2 =>
      let r := runFrom envs maxRetries fuel (attempt + 1) fs2
      (r.1, st.2 :: r.2)

/-- `sendAndConfirmWithRetry(provider, transaction, maxRetries, baseDelay)` of
Social.jsx lines 84-235 (the JS default is `maxRetries = 5`; `baseDelay` only
scales the backoff waits, which the traces do not record). -/
def sendAndConfirmWithRetry (envs : Nat → AttemptEnv) (maxRetries : Nat) :
    SendOutcome × List AttemptTrace :=
  runFrom envs maxRetries maxRetries 1 none

/-- Iteration environment in which the simulation call itself throws while
every other call succeeds, so no simulation ever reports "no error". -/
def simFailEnv : AttemptEnv :=
  { blockhash := .ok (), sim := .error ⟨"failed to fetch", "TypeError"⟩,
    send := .ok ⟨"SIGC3", true, "string"⟩, getTx := .ok (some none),
    alreadySig := "", getTxAlready := .ok none, logsText := "[]" }

/-- Iteration environment in which the simulation answers with an error
result (`value.err` set) while every other call succeeds. -/
def simErrEnv : AttemptEnv :=
  { blockhash := .ok (), sim := .ok (some "InstructionError"),
    send := .ok ⟨"SIGC3B", true, "string"⟩, getTx := .ok (some none),
    alreadySig := "", getTxAlready := .ok none, logsText := "[]" }

/-- Iteration environment in which every call succeeds and the transaction
confirms cleanly. -/
def happyEnv : AttemptEnv :=
  { blockhash := .ok (), sim := .ok none,
    send := .ok ⟨"SIGOK", true, "string"⟩, getTx := .ok (some none),
    alreadySig := "", getTxAlready := .ok none, logsText := "[]" }

/-- Iteration environment in which the send succeeds but the confirmation
status fetch throws a "failed to get transaction" RPC error. -/
def reconcileEnv : AttemptEnv :=
  { blockhash := .ok (), sim := .ok none,
    send := .ok ⟨"SIG4", true, "string"⟩,
    getTx := .error ⟨"failed to get transaction", "Error"⟩, alreadySig := "",
    getTxAlready := .ok none, logsText := "[]" }

/-- Iteration environment in which the send throws the already-processed
error and the status re-fetch finds a clean transaction. -/
def alreadyEnv : AttemptEnv :=
  { blockhash := .ok (), sim := .ok none,
    send := .error ⟨"This transaction has already been processed", "Error"⟩,
    getTx := .ok none, alreadySig := "SIG5",
    getTxAlready := .ok (some none), logsText := "[]" }

/-- Iteration environment in which the send throws a blockhash-expiry
error. -/
def expiredEnv : AttemptEnv :=
  { blockhash := .ok (), sim := .ok none,
    send := .error ⟨"Blockhash not found", "Error"⟩,
    getTx := .ok none, alreadySig := "",
    getTxAlready := .ok none, logsText := "[]" }

/-- Outcomes of the account fetches of one data-refresh attempt of
`executeTransactionSilently` (Social.jsx lines 2092-2153): the forum fetch
(performed only when the forum PDA is derived), then posts, replies, post
reports and reply reports. -/
structure RefreshEnv where
  forumFetch : Except String Unit
  postsFetch : Except String Unit
  repliesFetch : Except String Unit
  postReportsFetch : Except String Unit
  replyReportsFetch : Except String Unit

/-- Environment of one `executeTransactionSilently` call: whether the forum
PDA is derived, the outcome of the wrapped transaction function, and the
fetch outcomes of each refresh attempt. -/
structure SilentEnv where
  forumReady : Bool
  transactionFn : Except String Unit
  refresh : Nat → RefreshEnv

/-- The component state touched by `executeTransactionSilently`: the
`loading` and `error` states, whether the data states were replaced by fresh
chain data, and how many refresh attempts ran. -/
structure UiState where
  loading : Bool
  errorMsg : Option String
  dataRefreshed : Bool
  refreshAttempts : Nat
deriving Repr, DecidableEq

/-- JS `try { m } catch (e) { h e }`. -/
def tryCatchE {ε α : Type} (m : Except ε α) (h : ε → Except ε α) : Except ε α :=
  match m with
  | .ok a => .ok a
  | .error e => h e

/-- One refresh attempt (the loop body at Social.jsx lines 2090-2161): each
fetch in order, the first failure aborting the attempt. -/
def refreshOnce (forumReady : Bool) (r : RefreshEnv) : Except String Unit :=
  (if forumReady then r.forumFetch else .ok ()).bind fun _ =>
    r.postsFetch.bind fun _ =>
      r.repliesFetch.bind fun _ =>
        r.postReportsFetch.bind fun _ =>
          r.replyReportsFetch

/-- The refresh loop of `executeTransactionSilently` (Social.jsx lines
2089-2169): at most `fuel` attempts, breaking on the first success and
swallowing every failure (each failure only logs and waits). -/
def refreshLoop (forumReady : Bool) (refresh : Nat → RefreshEnv) :
    Nat → Nat → UiState → UiState
  | 0, _, s => s
  | fuel + 1, attempt, s =>
    match refreshOnce forumReady (refresh attempt) with
    | .ok _ => { s with dataRefreshed := true, refreshAttempts := attempt }
    | .error _ =>
      refreshLoop forumReady refresh fuel (attempt + 1) { s with refreshAttempts := attempt }

/-- `executeTransactionSilently(transactionFn, successMessage)` of Social.jsx
lines 2075-2172: set `loading`, clear the error state, run the wrapped
transaction function under a catch that only logs the error, then
unconditionally run the refresh loop (three attempts) and clear `loading`.
The `Except` result records whether the wrapper itself throws. -/
def executeTransactionSilently (env : SilentEnv) (s0 : UiState) : Except String UiState :=
  let s1 : UiState := { s0 with loading := true, errorMsg := none }
  (tryCatchE (env.transactionFn.map fun _ => s1) (fun _e => .ok s1)).bind fun s2 =>
    .ok { refreshLoop env.forumReady env.refresh 3 1 s2 with loading := false }

/-- Loop of `pollForFulfillment(orderId, maxPolls)` (Social.jsx lines
3326-3351): `polls i` is the parsed `status` field of the `i`-th status
request, or a thrown fetch error (which leaves the previous status in
place).  A status of "Fulfilled", "Failed" or "Expired" returns immediately;
any other status is kept and polling continues; after `maxPolls` polls the
last seen status is returned. -/
def pollForFulfillmentAux (polls : Nat → Except String String) :
    Nat → Nat → String → String
  | 0, _, status => status
  | fuel + 1, pollCount, status =>
    if status = "Fulfilled" then status
    else
      match polls pollCount with
      | .ok s =>
        if s = "Fulfilled" then s
        else if s = "Failed" ∨ s = "Expired" then s
        else pollForFulfillmentAux polls fuel (pollCount + 1) s
      | .error _ => pollForFulfillmentAux polls fuel (pollCount + 1) status

/-- `pollForFulfillment(orderId, maxPolls)`: the loop starts from the status
"Created" with `pollCount = 0`. -/
def pollForFulfillment (polls : Nat → Except String String) (maxPolls : Nat) : String :=
  pollForFulfillmentAux polls maxPolls 0 "Created"

/-- Environment of one `handleBridgeAndPost` call (Social.jsx lines
3153-3296): the guard on required inputs, then the observed outcome of each
step of the flow.  `orderIdFound` is the net result of `pollForOrderId`
(`none` is the two-minute timeout), `fulfillPolls` feeds
`pollForFulfillment`, `balanceCheck` is `verifySolBalance`, `postSend` is
`createAndSendPost`, and `refreshData` is `refreshForumData`. -/
structure BridgeEnv where
  inputsOk : Bool
  createTx : Except String Unit
  evmSend : Except String Unit
  evmWait : Except String Unit
  orderIdFound : Option String
  fulfillPolls : Nat → Except String String
  networkCheck : Except String Unit
  balanceCheck : Except String Bool
  postSend : Except String String
  refreshData : Except String Unit

/-- Observable outcome of a `handleBridgeAndPost` call: the error state set
by the outer catch (`none` on success), whether `createAndSendPost` was
invoked, the status returned by `pollForFulfillment` when reached, and
whether the balance verification succeeded before posting. -/
structure BridgeTrace where
  errorMsg : Option String
  postAttempted : Bool
  fulfillStatus : Option String
  balanceVerified : Bool
deriving Repr, DecidableEq

/-- Steps 5-8 of `handleBridgeAndPost` given the status returned by
`pollForFulfillment`: any status other than "Fulfilled" throws
`Bridge ` followed by the lowercased status (Social.jsx line 3256); otherwise
the network check, the balance verification (an insufficient balance
throws), the post transaction and the data refresh run in order, each error
being caught by the outer handler which sets the `Failed: ` error state. -/
def bridgeAfterPoll (env : BridgeEnv) (status : String) : BridgeTrace :=
  if status = "Fulfilled" then
    match env.networkCheck with
    | .error m => ⟨some ("Failed: " ++ m), false, some status, false⟩
    | .ok _ =>
      match env.balanceCheck with
      | .error m => ⟨some ("Failed: " ++ m), false, some status, false⟩
      | .ok false => ⟨some "Failed: Insufficient SOL for posting", false, some status, false⟩
      | .ok true =>
        match env.postSend with
        | .error m => ⟨some ("Failed: " ++ m), true, some status, true⟩
        | .ok _ =>
          match env.refreshData with
          | .error m => ⟨some ("Failed: " ++ m), true, some status, true⟩
          | .ok _ => ⟨none, true, some status, true⟩
  else ⟨some ("Failed: Bridge " ++ status.toLower), false, some status, false⟩

/-- `handleBridgeAndPost` of Social.jsx lines 3153-3296: the missing-inputs
guard, bridge transaction creation, the MetaMask send, the EVM confirmation
wait, order-id polling, then fulfillment polling (60 polls) followed by the
post flow. -/
def handleBridgeAndPost (env : BridgeEnv) : BridgeTrace :=
  match env.inputsOk with
  | false => ⟨some "Missing: required inputs", false, none, false⟩
  | true =>
    match env.createTx with
    | .error m => ⟨some ("Failed: " ++ m), false, none, false⟩
    | .ok _ =>
      match env.evmSend with
      | .error m => ⟨some ("Failed: " ++ m), false, none, false⟩
      | .ok _ =>
        match env.evmWait with
        | .error m => ⟨some ("Failed: " ++ m), false, none, false⟩
        | .ok _ =>
          match env.orderIdFound with
          | none => ⟨some "Failed: Order ID timeout after 2 minutes", false, none, false⟩
          | some _ => bridgeAfterPoll env (pollForFulfillment env.fulfillPolls 60)

/-- A silent-wrapper environment whose wrapped transaction function throws
and whose first refresh attempt succeeds. -/
def silentEnvX : SilentEnv :=
  { forumReady := true, transactionFn := .error "send failed",
    refresh := fun _ =>
      { forumFetch := .ok (), postsFetch := .ok (), repliesFetch := .ok (),
        postReportsFetch := .ok (), replyReportsFetch := .ok () } }

/-- Bridge environment of a fully successful run: the first fulfillment poll
answers "Fulfilled" and the balance check passes. -/
def fulfilledEnv : BridgeEnv :=
  { inputsOk := true, createTx := .ok (), evmSend := .ok (), evmWait := .ok (),
    orderIdFound := some "ORDER", fulfillPolls := fun _ => .ok "Fulfilled",
    networkCheck := .ok (), balanceCheck := .ok true, postSend := .ok "SIGB",
    refreshData := .ok () }

/-- The hardcoded admin key of Social.jsx line 238, as its base58 string. -/
def ADMIN_PUBLIC_KEY : String := "HrsKTCmdRrvfsknwVwnVguWFXQpLTdgCwQ8nwfFXvvLz"

/-- The three hardcoded moderator keys of Social.jsx lines 239-243. -/
def MODERATOR_PUBLIC_KEYS : List String :=
  ["7XeCnBHGWYxpVfd9zCoU3z8FtiSwoGZYk41jcE2sgBxW",
   "5n7BhkbShhh4LCKngM6z7kzKmFaM9jTmJ8XYpzSE7BXU",
   "HaNAWXNe3ZUwDKsTA8feKL43r4ViqaNAzzZGWixUvncp"]

/-- `MODERATOR_PUBLIC_KEYS.some(mod => mod.toBase58() === publicKey.toBase58())`. -/
def isModerator (pk : String) : Bool :=
  MODERATOR_PUBLIC_KEYS.any fun m => decide (m = pk)

/-- Whether a guard chain let the handler proceed past its early returns to
the transaction-building body. -/
def proceeds : Except String Unit → Bool
  | .ok _ => true
  | .error _ => false

/-- JS `!s.trim()`: the string trims to the empty string, that is, every
character is whitespace. -/
def jsTrimEmpty (s : String) : Bool :=
  s.data.all fun c => c.isWhitespace

/-- Guard chain of `createPost` (Social.jsx lines 2272-2295): wallet, content
and forum PDA present; the Announcements restriction; the 280-character limit
on the categorized content `[category] content`; the blank check.  An
`.error` is an early return that sets the error state and builds no
instruction. -/
def createPostGate (publicKey : Option String) (newPostContent : String) (forumReady : Bool)
    (newPostCategory : String) : Except String Unit :=
  match publicKey with
  | none => .error "Please connect wallet, enter post content, and wait for Forum PDA to be derived."
  | some pk =>
    if newPostContent = "" ∨ forumReady = false then
      .error "Please connect wallet, enter post content, and wait for Forum PDA to be derived."
    else if newPostCategory = "Announcements" ∧ isModerator pk = false ∧ pk ≠ ADMIN_PUBLIC_KEY then
      .error "Only admins and moderators can post in Announcements."
    else if ("[" ++ newPostCategory ++ "] " ++ newPostContent).length > 280 then
      .error "Post content exceeds 280 characters. Please shorten it."
    else if jsTrimEmpty ("[" ++ newPostCategory ++ "] " ++ newPostContent) then
      .error "Post content cannot be empty."
    else .ok ()

/-- Guard chain of `createReply` (Social.jsx lines 2367-2388); the reply
content entry may be absent (`none` models the missing map entry). -/
def createReplyGate (publicKey : Option String) (replyContent : Option String)
    (forumReady postFound : Bool) : Except String Unit :=
  if publicKey = none ∨ replyContent.getD "" = "" ∨ forumReady = false then
    .error "Please connect wallet, enter reply content, and wait for Forum PDA to be derived."
  else if postFound = false then
    .error "Post not found. Please ensure the post exists."
  else if (replyContent.getD "").length > 280 then
    .error "Reply content exceeds 280 characters. Please shorten it."
  else if jsTrimEmpty (replyContent.getD "") then
    .error "Reply content cannot be empty."
  else .ok ()

/-- Guard chain of `reportPost` (Social.jsx lines 2620-2641). -/
def reportPostGate (publicKey : Option String) (reportReason : String)
    (forumReady postFound : Bool) : Except String Unit :=
  if publicKey = none ∨ forumReady = false ∨ reportReason = "" then
    .error "Please connect wallet, wait for Forum PDA to be derived, and provide a report reason."
  else if postFound = false then
    .error "Post not found. Please ensure the post exists."
  else if reportReason.length > 100 then
    .error "Report reason exceeds 100 characters. Please shorten it."
  else if jsTrimEmpty reportReason then
    .error "Report reason cannot be empty."
  else .ok ()

/-- Guard chain of `reportReply` (Social.jsx lines 2708-2729). -/
def reportReplyGate (publicKey : Option String) (reportReason : String)
    (forumReady replyFound : Bool) : Except String Unit :=
  if publicKey = none ∨ forumReady = false ∨ reportReason = "" then
    .error "Please connect wallet, wait for Forum PDA to be derived, and provide a report reason."
  else if replyFound = false then
    .error "Reply not found. Please ensure the reply exists."
  else if reportReason.length > 100 then
    .error "Report reason exceeds 100 characters. Please shorten it."
  else if jsTrimEmpty reportReason then
    .error "Report reason cannot be empty."
  else .ok ()

/-- Guard chain of `deletePost` (Social.jsx lines 2836-2847). -/
def deletePostGate (publicKey : Option String) (forumReady : Bool) : Except String Unit :=
  match publicKey with
  | none => .error "Please connect wallet and wait for Forum PDA to be derived."
  | some pk =>
    if forumReady = false then
      .error "Please connect wallet and wait for Forum PDA to be derived."
    else if isModerator pk = false ∧ pk ≠ ADMIN_PUBLIC_KEY then
      .error "Only admins and moderators can delete posts."
    else .ok ()

/-- Guard chain of `deleteReply` (Social.jsx lines 2871-2882). -/
def deleteReplyGate (publicKey : Option String) (forumReady : Bool) : Except String Unit :=
  match publicKey with
  | none => .error "Please connect wallet and wait for Forum PDA to be derived."
  | some pk =>
    if forumReady = false then
      .error "Please connect wallet and wait for Forum PDA to be derived."
    else if isModerator pk = false ∧ pk ≠ ADMIN_PUBLIC_KEY then
      .error "Only admins and moderators can delete replies."
    else .ok ()

/-- Guard chain of `resolveReport` (Social.jsx lines 2796-2812). -/
def resolveReportGate (publicKey : Option String) (forumReady : Bool)
    (actionTaken : String) : Except String Unit :=
  match publicKey with
  | none => .error "Please connect wallet and wait for Forum PDA to be derived."
  | some pk =>
    if forumReady = false then
      .error "Please connect wallet and wait for Forum PDA to be derived."
    else if isModerator pk = false ∧ pk ≠ ADMIN_PUBLIC_KEY then
      .error "Only admins and moderators can resolve reports."
    else if actionTaken = "" ∨ actionTaken.length > 100 then
      .error "Action taken must be provided and not exceed 100 characters."
    else .ok ()

/-- Guard chain of `closeReport` (Social.jsx lines 2906-2917). -/
def closeReportGate (publicKey : Option String) (forumReady : Bool) : Except String Unit :=
  match publicKey with
  | none => .error "Please connect wallet and wait for Forum PDA to be derived."
  | some pk =>
    if forumReady = false then
      .error "Please connect wallet and wait for Forum PDA to be derived."
    else if isModerator pk = false ∧ pk ≠ ADMIN_PUBLIC_KEY then
      .error "Only admins and moderators can close reports."
    else .ok ()

/-- Guard chain of `closeForum` (Social.jsx lines 2940-2950): only the admin
key itself passes. -/
def closeForumGate (publicKey : Option String) (forumReady : Bool) : Except String Unit :=
  match publicKey with
  | none => .error "Please connect wallet and wait for Forum PDA to be derived."
  | some pk =>
    if forumReady = false then
      .error "Please connect wallet and wait for Forum PDA to be derived."
    else if pk ≠ ADMIN_PUBLIC_KEY then
      .error "Only admin can close the forum."
    else .ok ()

end Solcial

namespace Solcial

theorem withRetryAux_calls_le {α : Type} (fn : Nat → Except JsError α)
    (maxRetries baseDelay : Nat) (jitter : Nat → Nat) :
    ∀ fuel attempt, (withRetryAux fn maxRetries baseDelay jitter fuel attempt).2.1 ≤ fuel := by
  intro fuel
  induction fuel with
  | zero => intro attempt; simp [withRetryAux]
  | succ f ih =>
    intro attempt
    simp only [withRetryAux]
    cases h : fn attempt with
    | ok a => simp
    | error e =>
      by_cases hr : rateLimitHit e.message
      · by_cases hm : attempt = maxRetries
        · simp [hr, hm]
        · have := ih (attempt + 1)
          simp [hr, hm]
          omega
      · simp [hr]

theorem withRetryAux_calls_pos {α : Type} (fn : Nat → Except JsError α)
    (maxRetries baseDelay : Nat) (jitter : Nat → Nat) :
    ∀ fuel attempt, 1 ≤ fuel →
      1 ≤ (withRetryAux fn maxRetries baseDelay jitter fuel attempt).2.1 := by
  intro fuel attempt hfuel
  match fuel, hfuel with
  | f + 1, _ =>
    simp only [withRetryAux]
    cases h : fn attempt with
    | ok a => simp
    | error e =>
      by_cases hr : rateLimitHit e.message
      · by_cases hm : attempt = maxRetries
        · simp [hr, hm]
        · simp [hr, hm]
      · simp [hr]

theorem withRetryAux_rethrow {α : Type} (fn : Nat → Except JsError α)
    (maxRetries baseDelay : Nat) (jitter : Nat → Nat) :
    ∀ fuel attempt k e, attempt + fuel = maxRetries + 1 → attempt ≤ k → k ≤ maxRetries →
      (∀ i, attempt ≤ i → i < k → ∃ ei, fn i = .error ei ∧ rateLimitHit ei.message = true) →
      fn k = .error e → rateLimitHit e.message = false →
      (withRetryAux fn maxRetries baseDelay jitter fuel attempt).1 = .thrown e ∧
      (withRetryAux fn maxRetries baseDelay jitter fuel attempt).2.1 = k + 1 - attempt := by
  intro fuel
  induction fuel with
  | zero => intro attempt k e hinv hak hkm _ _ _; omega
  | succ f ih =>
    intro attempt k e hinv hak hkm hall hk hnr
    by_cases hek : attempt = k
    · subst hek
      simp only [withRetryAux, hk, hnr]
      simp
    · have haltk : attempt < k := lt_of_le_of_ne hak hek
      obtain ⟨ei, hei, hri⟩ := hall attempt le_rfl haltk
      have hnm : attempt ≠ maxRetries := by omega
      simp only [withRetryAux, hei, hri, if_true, hnm, if_false]
      have := ih (attempt + 1) k e (by omega) (by omega) hkm
        (fun i hi1 hi2 => hall i (by omega) hi2) hk hnr
      refine ⟨by simp [this.1], ?_⟩
      have h2 := this.2
      omega

theorem withRetryAux_exhaust {α : Type} (fn : Nat → Except JsError α)
    (maxRetries baseDelay : Nat) (jitter : Nat → Nat) :
    ∀ fuel attempt, attempt + fuel = maxRetries + 1 → attempt ≤ maxRetries →
      (∀ i, attempt ≤ i → i ≤ maxRetries → ∃ ei, fn i = .error ei ∧ rateLimitHit ei.message = true) →
      (withRetryAux fn maxRetries baseDelay jitter fuel attempt).1 =
        .thrown ⟨"Max retries reached due to rate limiting", "Error"⟩ ∧
      (withRetryAux fn maxRetries baseDelay jitter fuel attempt).2.1 = maxRetries + 1 - attempt := by
  intro fuel
  induction fuel with
  | zero => intro attempt hinv ham _; omega
  | succ f ih =>
    intro attempt hinv ham hall
    obtain ⟨ei, hei, hri⟩ := hall attempt le_rfl ham
    by_cases hm : attempt = maxRetries
    · subst hm
      simp only [withRetryAux, hei, hri, if_true]
      simp
    · simp only [withRetryAux, hei, hri, if_true, hm, if_false]
      have := ih (attempt + 1) (by omega) (by omega)
        (fun i hi1 hi2 => hall i (by omega) hi2)
      refine ⟨by simp [this.1], ?_⟩
      have h2 := this.2
      omega

theorem withRetryAux_delays {α : Type} (fn : Nat → Except JsError α)
    (maxRetries baseDelay : Nat) (jitter : Nat → Nat) :
    ∀ fuel attempt, attempt + fuel = maxRetries + 1 →
      (withRetryAux fn maxRetries baseDelay jitter fuel attempt).2.2 =
        (List.range' attempt ((withRetryAux fn maxRetries baseDelay jitter fuel attempt).2.1 - 1)).map
          (fun i => baseDelay * 2 ^ (i - 1) + jitter i) := by
  intro fuel
  induction fuel with
  | zero => intro attempt _; simp [withRetryAux]
  | succ f ih =>
    intro attempt hinv
    simp only [withRetryAux]
    cases h : fn attempt with
    | ok a => simp
    | error e =>
      by_cases hr : rateLimitHit e.message
      · by_cases hm : attempt = maxRetries
        · simp [hr, hm]
        · have hf : 1 ≤ f := by omega
          have hpos := withRetryAux_calls_pos fn maxRetries baseDelay jitter f (attempt + 1) hf
          have hrec := ih (attempt + 1) (by omega)
          simp only [hr, if_true, hm, if_false]
          obtain ⟨c, hc⟩ : ∃ c, (withRetryAux fn maxRetries baseDelay jitter f (attempt + 1)).2.1 = c + 1 :=
            ⟨(withRetryAux fn maxRetries baseDelay jitter f (attempt + 1)).2.1 - 1, by omega⟩
          simp only [hc] at hrec
          simp only [hrec, hc]
          have hrange : List.range' attempt (c + 1) = attempt :: List.range' (attempt + 1) c := rfl
          simp [hrange]
      · simp [hr]

/-- C2: `withRetry(fn, maxRetries, baseDelay)` retries `fn` only when the
thrown error message contains "429" or "Too Many Requests", waiting
`baseDelay * 2 ^ (attempt - 1)` plus random jitter between attempts; any other
error is rethrown immediately (after exactly as many invocations as attempts
made so far), and after `maxRetries` rate-limited attempts it throws
"Max retries reached due to rate limiting"; `fn` is invoked at most
`maxRetries` times. -/
theorem withRetry_rate_limit_spec {α : Type} (fn : Nat → Except JsError α)
    (maxRetries baseDelay : Nat) (jitter : Nat → Nat) :
    ((withRetry fn maxRetries baseDelay jitter).2.1 ≤ maxRetries)
    ∧ (∀ k e, 1 ≤ k → k ≤ maxRetries →
        (∀ i, 1 ≤ i → i < k → ∃ ei, fn i = .error ei ∧ rateLimitHit ei.message = true) →
        fn k = .error e → rateLimitHit e.message = false →
        (withRetry fn maxRetries baseDelay jitter).1 = .thrown e ∧
        (withRetry fn maxRetries baseDelay jitter).2.1 = k)
    ∧ (1 ≤ maxRetries →
        (∀ i, 1 ≤ i → i ≤ maxRetries → ∃ ei, fn i = .error ei ∧ rateLimitHit ei.message = true) →
        (withRetry fn maxRetries baseDelay jitter).1 =
          .thrown ⟨"Max retries reached due to rate limiting", "Error"⟩ ∧
        (withRetry fn maxRetries baseDelay jitter).2.1 = maxRetries)
    ∧ ((withRetry fn maxRetries baseDelay jitter).2.2 =
        (List.range' 1 ((withRetry fn maxRetries baseDelay jitter).2.1 - 1)).map
          (fun i => baseDelay * 2 ^ (i - 1) + jitter i)) := by
  refine ⟨?_, ?_, ?_, ?_⟩
  · exact withRetryAux_calls_le fn maxRetries baseDelay jitter maxRetries 1
  · intro k e hk1 hkm hall hke hnr
    have := withRetryAux_rethrow fn maxRetries baseDelay jitter maxRetries 1 k e
      (by omega) hk1 hkm hall hke hnr
    refine ⟨this.1, ?_⟩
    show (withRetryAux fn maxRetries baseDelay jitter maxRetries 1).2.1 = k
    have h2 := this.2
    omega
  · intro hm hall
    have := withRetryAux_exhaust fn maxRetries baseDelay jitter maxRetries 1 (by omega) hm hall
    refine ⟨this.1, ?_⟩
    show (withRetryAux fn maxRetries baseDelay jitter maxRetries 1).2.1 = maxRetries
    have h2 := this.2
    omega
  · exact withRetryAux_delays fn maxRetries baseDelay jitter maxRetries 1 (by omega)

/-- Witness for C2: with every attempt failing with an HTTP 429 message and
`maxRetries = 3`, the wrapper throws the max-retries error after exactly three
invocations. -/
theorem withRetry_rate_limit_spec_witness :
    (withRetry (fun _ => (.error ⟨"HTTP 429", "Error"⟩ : Except JsError Nat)) 3 1000
        (fun _ => 0)).1 =
      .thrown ⟨"Max retries reached due to rate limiting", "Error"⟩ ∧
    (withRetry (fun _ => (.error ⟨"HTTP 429", "Error"⟩ : Except JsError Nat)) 3 1000
        (fun _ => 0)).2.1 = 3 :=
  (withRetry_rate_limit_spec (fun _ => (.error ⟨"HTTP 429", "Error"⟩ : Except JsError Nat))
      3 1000 (fun _ => 0)).2.2.1 (by decide)
    (fun i _ _ => ⟨⟨"HTTP 429", "Error"⟩, rfl, by decide⟩)

theorem afterSim_trace (env : AttemptEnv) (attempt maxRetries : Nat) (fs : Option String)
    (sN sT : Bool) :
    (afterSim env attempt maxRetries fs sN sT).2.att = attempt ∧
    (afterSim env attempt maxRetries fs sN sT).2.bhCalled = true ∧
    (afterSim env attempt maxRetries fs sN sT).2.simCalled = true ∧
    (afterSim env attempt maxRetries fs sN sT).2.simNoErr = sN ∧
    (afterSim env attempt maxRetries fs sN sT).2.simThrew = sT ∧
    (afterSim env attempt maxRetries fs sN sT).2.sends = 1 := by
  cases hsend : env.send with
  | error e => simp [afterSim, hsend]
  | ok sOk =>
    cases hct : confirmThrown env sOk with
    | none => simp [afterSim, hsend, hct]
    | some ce =>
      by_cases h1 : confirmRecoverable ce.message
      · simp [afterSim, hsend, hct, h1]
      · by_cases h2 : truthyStr (some sOk.sig)
        · simp [afterSim, hsend, hct, h1, h2]
        · simp [afterSim, hsend, hct, h1, h2]

theorem stepAttempt_trace (env : AttemptEnv) (attempt maxRetries : Nat) (fs : Option String) :
    (stepAttempt env attempt maxRetries fs).2.att = attempt ∧
    (stepAttempt env attempt maxRetries fs).2.bhCalled = true ∧
    (stepAttempt env attempt maxRetries fs).2.sends ≤ 1 ∧
    (0 < (stepAttempt env attempt maxRetries fs).2.sends →
      (stepAttempt env attempt maxRetries fs).2.simCalled = true ∧
      ((stepAttempt env attempt maxRetries fs).2.simNoErr = true ∨ attempt = maxRetries)) := by
  cases hbh : env.blockhash with
  | error e => simp [stepAttempt, hbh]
  | ok u =>
    cases hsim : env.sim with
    | error se =>
      by_cases hm : attempt = maxRetries
      · subst hm
        obtain ⟨h1, h2, h3, h4, h5, h6⟩ := afterSim_trace env attempt attempt fs false true
        have hred : stepAttempt env attempt attempt fs =
            afterSim env attempt attempt fs false true := by
          simp [stepAttempt, hbh, hsim]
        rw [hred]
        exact ⟨h1, h2, by omega, fun _ => ⟨h3, Or.inr rfl⟩⟩
      · simp [stepAttempt, hbh, hsim, hm]
    | ok o =>
      cases o with
      | none =>
        obtain ⟨h1, h2, h3, h4, h5, h6⟩ := afterSim_trace env attempt maxRetries fs true false
        simp only [stepAttempt, hbh, hsim]
        exact ⟨h1, h2, by omega, fun _ => ⟨h3, Or.inl h4⟩⟩
      | some simErrText =>
        by_cases hm : attempt = maxRetries
        · subst hm
          obtain ⟨h1, h2, h3, h4, h5, h6⟩ := afterSim_trace env attempt attempt fs false false
          have hred : stepAttempt env attempt attempt fs =
              afterSim env attempt attempt fs false false := by
            simp [stepAttempt, hbh, hsim]
          rw [hred]
          exact ⟨h1, h2, by omega, fun _ => ⟨h3, Or.inr rfl⟩⟩
        · simp [stepAttempt, hbh, hsim, hm]

/-- Any iteration whose simulation reported no error, and any final-allowed
iteration regardless of its simulation outcome, proceeds to the send phase
(given a successful blockhash fetch). -/
theorem stepAttempt_reaches_send (env : AttemptEnv) (attempt maxRetries : Nat)
    (fs : Option String) (hbh : env.blockhash = .ok ())
    (hsim : env.sim = .ok none ∨ attempt = maxRetries) :
    ∃ sN sT, stepAttempt env attempt maxRetries fs =
      afterSim env attempt maxRetries fs sN sT := by
  rcases hsim with h | hmax
  · exact ⟨true, false, by simp [stepAttempt, hbh, h]⟩
  · subst hmax
    cases hs : env.sim with
    | error se => exact ⟨false, true, by simp [stepAttempt, hbh, hs]⟩
    | ok o =>
      cases o with
      | none => exact ⟨true, false, by simp [stepAttempt, hbh, hs]⟩
      | some t => exact ⟨false, false, by simp [stepAttempt, hbh, hs]⟩

theorem runFrom_trace (envs : Nat → AttemptEnv) (maxRetries : Nat) :
    ∀ fuel attempt fs tr, tr ∈ (runFrom envs maxRetries fuel attempt fs).2 →
      tr.bhCalled = true ∧ tr.sends ≤ 1 ∧
      (0 < tr.sends → tr.simCalled = true ∧
        (tr.simNoErr = true ∨ tr.att = maxRetries)) := by
  intro fuel
  induction fuel with
  | zero => intro attempt fs tr h; simp [runFrom] at h
  | succ f ih =>
    intro attempt fs tr h
    obtain ⟨hatt, hbh, hsends, himp⟩ := stepAttempt_trace (envs attempt) attempt maxRetries fs
    have hfromStep : tr = (stepAttempt (envs attempt) attempt maxRetries fs).2 →
        tr.bhCalled = true ∧ tr.sends ≤ 1 ∧
        (0 < tr.sends → tr.simCalled = true ∧
          (tr.simNoErr = true ∨ tr.att = maxRetries)) := by
      intro heq
      subst heq
      refine ⟨hbh, hsends, fun hs => ?_⟩
      obtain ⟨hc, hd⟩ := himp hs
      exact ⟨hc, hd.elim Or.inl (fun hx => Or.inr (by rw [hatt]; exact hx))⟩
    simp only [runFrom] at h
    cases hres : (stepAttempt (envs attempt) attempt maxRetries fs).1 with
    | ret s =>
      rw [hres] at h
      simp at h
      exact hfromStep h
    | thrown e =>
      rw [hres] at h
      simp at h
      exact hfromStep h
    | cont fs2 =>
      rw [hres] at h
      simp at h
      rcases h with h | h
      · exact hfromStep h
      · exact ih (attempt + 1) fs2 tr h

/-- C3 counterexample: with `maxRetries = 1` the final attempt submits the
transaction (`sends = 1`) even though its simulation never reported
"no error", and the call returns the signature — both when the simulation
call throws (`simFailEnv`, trace has `simThrew = true`) and when the
simulation returns an error result (`simErrEnv`: the line-109
"Simulation failed" throw is caught by the simulation catch at line 115,
which falls through to the send). -/
theorem sendAndConfirm_cex_simulate_then_send :
    (sendAndConfirmWithRetry (fun _ => simFailEnv) 1).2 =
      [⟨1, true, true, false, true, 1, true, false⟩] ∧
    (sendAndConfirmWithRetry (fun _ => simFailEnv) 1).1 = .sig "SIGC3" ∧
    (sendAndConfirmWithRetry (fun _ => simErrEnv) 1).2 =
      [⟨1, true, true, false, false, 1, true, false⟩] ∧
    (sendAndConfirmWithRetry (fun _ => simErrEnv) 1).1 = .sig "SIGC3B" := by
  decide

/-- C3 (amended): on every iteration of `sendAndConfirmWithRetry` the
transaction is simulated before any send; on a non-final attempt it is
submitted only after the simulation on that attempt reported no error, while
on the final allowed attempt it is submitted regardless of the simulation
outcome (a throwing simulation call falls through to the send, and a
simulation that returns an error result raises the line-109
"Simulation failed" error into the simulation catch itself, which also
falls through to the send). -/
theorem sendAndConfirm_simulate_then_send_amended :
    ∀ (envs : Nat → AttemptEnv) (maxRetries fuel attempt : Nat) (fs : Option String)
      (tr : AttemptTrace), tr ∈ (runFrom envs maxRetries fuel attempt fs).2 → 0 < tr.sends →
      tr.simCalled = true ∧ (tr.simNoErr = true ∨ tr.att = maxRetries) := by
  intro envs maxRetries fuel attempt fs tr h hs
  exact (runFrom_trace envs maxRetries fuel attempt fs tr h).2.2 hs

/-- Witness for the amended C3 statement at a concrete clean run. -/
theorem sendAndConfirm_simulate_then_send_amended_witness :
    (⟨1, true, true, true, false, 1, true, false⟩ : AttemptTrace).simCalled = true ∧
    ((⟨1, true, true, true, false, 1, true, false⟩ : AttemptTrace).simNoErr = true ∨
      (⟨1, true, true, true, false, 1, true, false⟩ : AttemptTrace).att = 1) :=
  sendAndConfirm_simulate_then_send_amended (fun _ => happyEnv) 1 1 1 none
    ⟨1, true, true, true, false, 1, true, false⟩ (by decide) (by decide)

/-- C4: whenever an iteration of `sendAndConfirmWithRetry` has obtained a
signature from the send and the confirmation step then fails with an error
whose message contains "WrongSize", "Invalid param", or
"failed to get transaction", the call returns that signature instead of
raising (first conjunct; the simulation hypothesis covers every path that
reaches the send: a no-error simulation on any attempt, and any simulation
outcome on the final attempt).  The same reconciliation sits in the outer
per-attempt error handler (Social.jsx lines 182-195): when an error matching
the guard of that branch ("Invalid params: invalid type: map, expected a
string", "WrongSize", or "failed to get transaction") reaches the outer
catch while the persistent `finalSignature` is truthy, the handler returns
`finalSignature` instead of raising (second conjunct, lines 186-189). -/
theorem sendAndConfirm_confirm_reconciliation :
    (∀ (envs : Nat → AttemptEnv) (maxRetries fuel attempt : Nat) (fs : Option String)
      (sOk : SendOk) (e : JsError),
      (envs attempt).blockhash = .ok () →
      ((envs attempt).sim = .ok none ∨ attempt = maxRetries) →
      (envs attempt).send = .ok sOk →
      confirmThrown (envs attempt) sOk = some e →
      confirmRecoverable e.message = true →
      (runFrom envs maxRetries (fuel + 1) attempt fs).1 = .sig sOk.sig) ∧
    (∀ (env : AttemptEnv) (attempt maxRetries : Nat) (fs : Option String) (e : JsError),
      truthyStr fs = true →
      containsSubstr e.message "Invalid arguments" = false →
      rpcConfirmGlitch e.message = true →
      outerCatch env attempt maxRetries fs e = (.ret (fs.getD ""), false)) := by
  constructor
  · intro envs maxRetries fuel attempt fs sOk e hbh hsim hsend hct hcr
    obtain ⟨sN, sT, hred⟩ :=
      stepAttempt_reaches_send (envs attempt) attempt maxRetries fs hbh hsim
    have hstep : (stepAttempt (envs attempt) attempt maxRetries fs).1 = .ret sOk.sig := by
      rw [hred]
      simp [afterSim, hsend, hct, hcr]
    simp [runFrom, hstep]
  · intro env attempt maxRetries fs e ht hia hgl
    simp [outerCatch, hia, hgl, ht]

/-- Witness for C4 at concrete inputs for both conjuncts: an iteration whose
confirmation status fetch throws "failed to get transaction" returns the
signature, and the outer handler returns a truthy final signature on a
"WrongSize" error. -/
theorem sendAndConfirm_confirm_reconciliation_witness :
    (runFrom (fun _ => reconcileEnv) 5 5 1 none).1 = .sig "SIG4" ∧
    outerCatch reconcileEnv 1 5 (some "SIG4") ⟨"WrongSize", "Error"⟩ =
      (.ret "SIG4", false) :=
  ⟨sendAndConfirm_confirm_reconciliation.1 (fun _ => reconcileEnv) 5 4 1 none
      ⟨"SIG4", true, "string"⟩ ⟨"failed to get transaction", "Error"⟩ rfl (Or.inl rfl) rfl
      rfl (by decide),
    sendAndConfirm_confirm_reconciliation.2 reconcileEnv 1 5 (some "SIG4")
      ⟨"WrongSize", "Error"⟩ (by decide) (by decide) (by decide)⟩

/-- C5: when a send attempt fails with an error carrying the
already-processed message (and dispatched to the already-processed branch,
that is, not also matching the earlier "Invalid arguments" or
RPC-confirmation-glitch branches of the catch chain), the wrapper re-fetches
the status of the transaction first signature: it returns that signature if
the status exists with no error, and otherwise throws
"Transaction already processed but failed or not found".  The simulation
hypothesis covers every path that reaches the send: a no-error simulation on
any attempt, and any simulation outcome on the final attempt. -/
theorem sendAndConfirm_already_processed :
    ∀ (envs : Nat → AttemptEnv) (maxRetries fuel attempt : Nat) (fs : Option String)
      (e : JsError),
      (envs attempt).blockhash = .ok () →
      ((envs attempt).sim = .ok none ∨ attempt = maxRetries) →
      (envs attempt).send = .error e →
      containsSubstr e.message "This transaction has already been processed" = true →
      containsSubstr e.message "Invalid arguments" = false →
      rpcConfirmGlitch e.message = false →
      ((envs attempt).getTxAlready = .ok (some none) →
        (runFrom envs maxRetries (fuel + 1) attempt fs).1 = .sig (envs attempt).alreadySig) ∧
      ((envs attempt).getTxAlready ≠ .ok (some none) →
        (runFrom envs maxRetries (fuel + 1) attempt fs).1 =
          .thrown ⟨"Transaction already processed but failed or not found", "Error"⟩) := by
  intro envs maxRetries fuel attempt fs e hbh hsim hsend hap hia hgl
  obtain ⟨sN, sT, hred⟩ :=
    stepAttempt_reaches_send (envs attempt) attempt maxRetries fs hbh hsim
  constructor
  · intro hga
    have hstep : (stepAttempt (envs attempt) attempt maxRetries fs).1 =
        .ret (envs attempt).alreadySig := by
      rw [hred]
      simp [afterSim, hsend, outerCatch, hia, hgl, hap, hga]
    simp [runFrom, hstep]
  · intro hga
    have hstep : (stepAttempt (envs attempt) attempt maxRetries fs).1 =
        .thrown ⟨"Transaction already processed but failed or not found", "Error"⟩ := by
      rw [hred]
      simp only [afterSim, hsend]
      cases hg : (envs attempt).getTxAlready with
      | error e2 => simp [outerCatch, hia, hgl, hap, hg]
      | ok o =>
        cases o with
        | none => simp [outerCatch, hia, hgl, hap, hg]
        | some oo =>
          cases oo with
          | none => exact absurd hg hga
          | some m => simp [outerCatch, hia, hgl, hap, hg]
    simp [runFrom, hstep]

/-- Witness for C5 at a concrete environment where the status re-fetch finds
the already-processed transaction clean. -/
theorem sendAndConfirm_already_processed_witness :
    (runFrom (fun _ => alreadyEnv) 5 5 1 none).1 = .sig "SIG5" :=
  (sendAndConfirm_already_processed (fun _ => alreadyEnv) 5 4 1 none
      ⟨"This transaction has already been processed", "Error"⟩ rfl (Or.inl rfl) rfl
      (by decide) (by decide) (by decide)).1 rfl

/-- C7 counterexample: on a clean run with `maxRetries = 1`, the single
iteration invokes four distinct RPC operations (blockhash fetch, simulation,
send, and confirmation status fetch), each issuing at least one request to
the endpoint, so the attempt does not consist of exactly one RPC request. -/
theorem sendAndConfirm_cex_rpc_per_attempt :
    ((sendAndConfirmWithRetry (fun _ => happyEnv) 1).2.map AttemptTrace.rpcOps) = [4] ∧
    (4 : Nat) ≠ 1 := by
  decide

/-- C7 (amended): on each iteration `sendAndConfirmWithRetry` invokes the
transaction-submission RPC (`provider.sendAndConfirm`) at most once; every
iteration invokes at least one RPC operation, and an iteration that reaches
the send has also invoked the blockhash fetch and the simulation — at least
three distinct RPC operations, each issuing one or more requests (the
`withRetry` wrappers, the send internal confirmation and `err.getLogs` add
more) — so an attempt is never a single RPC request; only the send itself is
unique per attempt. -/
theorem sendAndConfirm_rpc_per_attempt_amended :
    ∀ (envs : Nat → AttemptEnv) (maxRetries fuel attempt : Nat) (fs : Option String)
      (tr : AttemptTrace), tr ∈ (runFrom envs maxRetries fuel attempt fs).2 →
      tr.sends ≤ 1 ∧ 1 ≤ tr.rpcOps ∧ (0 < tr.sends → 3 ≤ tr.rpcOps) := by
  intro envs maxRetries fuel attempt fs tr h
  obtain ⟨hbh, hsends, himp⟩ := runFrom_trace envs maxRetries fuel attempt fs tr h
  refine ⟨hsends, ?_, ?_⟩
  · simp only [AttemptTrace.rpcOps, hbh, if_true]
    omega
  · intro hs
    obtain ⟨hsim, _⟩ := himp hs
    simp only [AttemptTrace.rpcOps, hbh, hsim, if_true]
    omega

/-- Witness for the amended C7 statement at a concrete clean run: at most
one send, and at least three RPC operations on the sending attempt. -/
theorem sendAndConfirm_rpc_per_attempt_amended_witness :
    (⟨1, true, true, true, false, 1, true, false⟩ : AttemptTrace).sends ≤ 1 ∧
    1 ≤ (⟨1, true, true, true, false, 1, true, false⟩ : AttemptTrace).rpcOps ∧
    3 ≤ (⟨1, true, true, true, false, 1, true, false⟩ : AttemptTrace).rpcOps :=
  ⟨(sendAndConfirm_rpc_per_attempt_amended (fun _ => happyEnv) 1 1 1 none
      ⟨1, true, true, true, false, 1, true, false⟩ (by decide)).1,
    (sendAndConfirm_rpc_per_attempt_amended (fun _ => happyEnv) 1 1 1 none
      ⟨1, true, true, true, false, 1, true, false⟩ (by decide)).2.1,
    (sendAndConfirm_rpc_per_attempt_amended (fun _ => happyEnv) 1 1 1 none
      ⟨1, true, true, true, false, 1, true, false⟩ (by decide)).2.2 (by decide)⟩

/-- C10: when the final allowed attempt of `sendAndConfirmWithRetry` fails
with a blockhash-expiry error (message containing "Blockhash not found" or
"TransactionExpiredBlockheightExceededError", dispatched to the
blockhash-expiry branch), the loop is re-entered past `maxRetries` and
exits, so the call returns the implicit `undefined` rather than a signature
or a thrown error.  The simulation hypothesis covers every path that
reaches the send: a no-error simulation on any attempt, and any simulation
outcome on the final attempt. -/
theorem sendAndConfirm_blockhash_expiry_undefined :
    ∀ (envs : Nat → AttemptEnv) (maxRetries attempt : Nat) (fs : Option String)
      (e : JsError),
      (envs attempt).blockhash = .ok () →
      ((envs attempt).sim = .ok none ∨ attempt = maxRetries) →
      (envs attempt).send = .error e →
      blockhashExpired e.message = true →
      containsSubstr e.message "Invalid arguments" = false →
      rpcConfirmGlitch e.message = false →
      containsSubstr e.message "This transaction has already been processed" = false →
      (runFrom envs maxRetries 1 attempt fs).1 = .undef := by
  intro envs maxRetries attempt fs e hbh hsim hsend hbe h1 h2 h3
  obtain ⟨sN, sT, hred⟩ :=
    stepAttempt_reaches_send (envs attempt) attempt maxRetries fs hbh hsim
  have hstep : (stepAttempt (envs attempt) attempt maxRetries fs).1 = .cont fs := by
    rw [hred]
    simp [afterSim, hsend, outerCatch, h1, h2, h3, hbe]
  simp [runFrom, hstep]

/-- Witness for C10: with a single allowed attempt failing with
"Blockhash not found", the whole call returns `undefined`. -/
theorem sendAndConfirm_blockhash_expiry_undefined_witness :
    (sendAndConfirmWithRetry (fun _ => expiredEnv) 1).1 = .undef :=
  sendAndConfirm_blockhash_expiry_undefined (fun _ => expiredEnv) 1 1 none
    ⟨"Blockhash not found", "Error"⟩ rfl (Or.inl rfl) rfl (by decide) (by decide)
    (by decide) (by decide)

theorem refreshLoop_preserves (forumReady : Bool) (refresh : Nat → RefreshEnv) :
    ∀ fuel attempt s, (refreshLoop forumReady refresh fuel attempt s).errorMsg = s.errorMsg ∧
      (refreshLoop forumReady refresh fuel attempt s).loading = s.loading := by
  intro fuel
  induction fuel with
  | zero => intro attempt s; simp [refreshLoop]
  | succ f ih =>
    intro attempt s
    cases h : refreshOnce forumReady (refresh attempt) with
    | ok u => simp [refreshLoop, h]
    | error e =>
      simp only [refreshLoop, h]
      simpa using ih (attempt + 1) { s with refreshAttempts := attempt }

theorem refreshLoop_attempts (forumReady : Bool) (refresh : Nat → RefreshEnv) :
    ∀ fuel attempt s, 1 ≤ fuel →
      attempt ≤ (refreshLoop forumReady refresh fuel attempt s).refreshAttempts ∧
      (refreshLoop forumReady refresh fuel attempt s).refreshAttempts ≤ attempt + fuel - 1 := by
  intro fuel
  induction fuel with
  | zero => intro attempt s h; omega
  | succ f ih =>
    intro attempt s _
    cases h : refreshOnce forumReady (refresh attempt) with
    | ok u => simp [refreshLoop, h]
    | error e =>
      simp only [refreshLoop, h]
      by_cases hf : 1 ≤ f
      · have := ih (attempt + 1) { s with refreshAttempts := attempt } hf
        omega
      · have hf0 : f = 0 := by omega
        subst hf0
        simp [refreshLoop]

/-- C1: `executeTransactionSilently` catches any error of the wrapped
transaction function without rethrowing it and without setting the error
state, unconditionally runs the data-refresh loop (between one and three
attempts, swallowing refresh failures), and returns normally: its result is
`.ok` with a cleared error state and `loading` off, and the whole run is
identical whether the wrapped transaction function threw or succeeded. -/
theorem executeTransactionSilently_silent (env : SilentEnv) (s0 : UiState) (m : String) :
    (∃ s, executeTransactionSilently env s0 = .ok s ∧ s.errorMsg = none ∧ s.loading = false ∧
      1 ≤ s.refreshAttempts ∧ s.refreshAttempts ≤ 3) ∧
    executeTransactionSilently { env with transactionFn := .error m } s0 =
      executeTransactionSilently { env with transactionFn := .ok () } s0 := by
  constructor
  · refine ⟨{ refreshLoop env.forumReady env.refresh 3 1
        { s0 with loading := true, errorMsg := none } with loading := false },
      ?_, ?_, ?_, ?_, ?_⟩
    · cases htx : env.transactionFn with
      | ok u => simp [executeTransactionSilently, tryCatchE, htx, Except.map, Except.bind]
      | error e => simp [executeTransactionSilently, tryCatchE, htx, Except.map, Except.bind]
    · have := refreshLoop_preserves env.forumReady env.refresh 3 1
        { s0 with loading := true, errorMsg := none }
      simpa using this.1
    · rfl
    · have := refreshLoop_attempts env.forumReady env.refresh 3 1
        { s0 with loading := true, errorMsg := none } (by omega)
      simpa using this.1
    · have := refreshLoop_attempts env.forumReady env.refresh 3 1
        { s0 with loading := true, errorMsg := none } (by omega)
      have h2 := this.2
      simp only [] at h2 ⊢
      omega
  · rfl

/-- Witness for C1: a concrete run whose wrapped transaction function throws
still ends in a normal return with no error state. -/
theorem executeTransactionSilently_silent_witness :
    ∃ s, executeTransactionSilently silentEnvX ⟨false, none, false, 0⟩ = .ok s ∧
      s.errorMsg = none ∧ s.loading = false ∧
      1 ≤ s.refreshAttempts ∧ s.refreshAttempts ≤ 3 :=
  (executeTransactionSilently_silent silentEnvX ⟨false, none, false, 0⟩ "x").1

theorem pollForFulfillmentAux_fulfilled (polls : Nat → Except String String) :
    ∀ fuel count status, pollForFulfillmentAux polls fuel count status = "Fulfilled" →
      status = "Fulfilled" ∨ ∃ k, count ≤ k ∧ k < count + fuel ∧ polls k = .ok "Fulfilled" := by
  intro fuel
  induction fuel with
  | zero => intro count status h; exact Or.inl h
  | succ f ih =>
    intro count status h
    by_cases hst : status = "Fulfilled"
    · exact Or.inl hst
    · rw [pollForFulfillmentAux, if_neg hst] at h
      cases hp : polls count with
      | error m =>
        rw [hp] at h
        rcases ih (count + 1) status h with h1 | ⟨k, hk1, hk2, hk3⟩
        · exact Or.inl h1
        · exact Or.inr ⟨k, by omega, by omega, hk3⟩
      | ok s =>
        rw [hp] at h
        have h2 : (if s = "Fulfilled" then s
            else if s = "Failed" ∨ s = "Expired" then s
            else pollForFulfillmentAux polls f (count + 1) s) = "Fulfilled" := h
        by_cases hs : s = "Fulfilled"
        · rw [hs] at hp
          exact Or.inr ⟨count, le_rfl, by omega, hp⟩
        · rw [if_neg hs] at h2
          by_cases hfe : s = "Failed" ∨ s = "Expired"
          · rw [if_pos hfe] at h2
            exact absurd h2 hs
          · rw [if_neg hfe] at h2
            rcases ih (count + 1) s h2 with h1 | ⟨k, hk1, hk2, hk3⟩
            · exact absurd h1 hs
            · exact Or.inr ⟨k, by omega, by omega, hk3⟩

theorem bridgeAfterPoll_spec (env : BridgeEnv) (status : String) :
    (bridgeAfterPoll env status).fulfillStatus = some status ∧
    ((bridgeAfterPoll env status).postAttempted = true →
      status = "Fulfilled" ∧ (bridgeAfterPoll env status).balanceVerified = true ∧
      env.balanceCheck = .ok true) ∧
    (status ≠ "Fulfilled" → (bridgeAfterPoll env status).postAttempted = false ∧
      (bridgeAfterPoll env status).errorMsg = some ("Failed: Bridge " ++ status.toLower)) := by
  by_cases hst : status = "Fulfilled"
  · subst hst
    cases hnc : env.networkCheck with
    | error m => simp [bridgeAfterPoll, hnc]
    | ok u =>
      cases hbc : env.balanceCheck with
      | error m => simp [bridgeAfterPoll, hnc, hbc]
      | ok b =>
        cases b with
        | false => simp [bridgeAfterPoll, hnc, hbc]
        | true =>
          cases hps : env.postSend with
          | error m => simp [bridgeAfterPoll, hnc, hbc, hps]
          | ok sg =>
            cases hrd : env.refreshData with
            | error m => simp [bridgeAfterPoll, hnc, hbc, hps, hrd]
            | ok u2 => simp [bridgeAfterPoll, hnc, hbc, hps, hrd]
  · simp [bridgeAfterPoll, hst]

/-- C6: in `handleBridgeAndPost` the Solana post transaction is created and
submitted only after the polled bridge status is exactly "Fulfilled" and the
SOL balance verification passed; a "Fulfilled" result requires some poll to
have answered "Fulfilled" within the 60-poll bound; and any other final
status (including "Failed", "Expired", or never reaching "Fulfilled") sets
the thrown `Bridge ` error and never invokes the post transaction. -/
theorem bridge_post_only_after_fulfilled (env : BridgeEnv) :
    ((handleBridgeAndPost env).postAttempted = true →
      (handleBridgeAndPost env).fulfillStatus = some "Fulfilled" ∧
      (handleBridgeAndPost env).balanceVerified = true ∧ env.balanceCheck = .ok true) ∧
    (∀ s, (handleBridgeAndPost env).fulfillStatus = some s → s ≠ "Fulfilled" →
      (handleBridgeAndPost env).postAttempted = false ∧
      (handleBridgeAndPost env).errorMsg = some ("Failed: Bridge " ++ s.toLower)) ∧
    ((handleBridgeAndPost env).fulfillStatus = some "Fulfilled" →
      ∃ k, k < 60 ∧ env.fulfillPolls k = .ok "Fulfilled") := by
  cases hin : env.inputsOk with
  | false => simp [handleBridgeAndPost, hin]
  | true =>
    cases hct : env.createTx with
    | error m => simp [handleBridgeAndPost, hin, hct]
    | ok u1 =>
      cases hes : env.evmSend with
      | error m => simp [handleBridgeAndPost, hin, hct, hes]
      | ok u2 =>
        cases hew : env.evmWait with
        | error m => simp [handleBridgeAndPost, hin, hct, hes, hew]
        | ok u3 =>
          cases hoid : env.orderIdFound with
          | none => simp [handleBridgeAndPost, hin, hct, hes, hew, hoid]
          | some oid =>
            have hred : handleBridgeAndPost env =
                bridgeAfterPoll env (pollForFulfillment env.fulfillPolls 60) := by
              simp [handleBridgeAndPost, hin, hct, hes, hew, hoid]
            rw [hred]
            obtain ⟨hfs, hpost, hne⟩ := bridgeAfterPoll_spec env
              (pollForFulfillment env.fulfillPolls 60)
            refine ⟨?_, ?_, ?_⟩
            · intro hp
              obtain ⟨h1, h2, h3⟩ := hpost hp
              exact ⟨by rw [hfs, h1], h2, h3⟩
            · intro s hs hsne
              rw [hfs] at hs
              injection hs with hs
              subst hs
              exact hne hsne
            · intro hf
              rw [hfs] at hf
              injection hf with hf
              rcases pollForFulfillmentAux_fulfilled env.fulfillPolls 60 0 "Created" hf with
                h1 | ⟨k, hk1, hk2, hk3⟩
              · exact absurd h1 (by decide)
              · exact ⟨k, by omega, hk3⟩

/-- Witness for C6: on a fully successful bridge run the post is attempted
with status "Fulfilled" and a verified balance. -/
theorem bridge_post_only_after_fulfilled_witness :
    (handleBridgeAndPost fulfilledEnv).fulfillStatus = some "Fulfilled" ∧
    (handleBridgeAndPost fulfilledEnv).balanceVerified = true ∧
    fulfilledEnv.balanceCheck = .ok true :=
  (bridge_post_only_after_fulfilled fulfilledEnv).1 (by decide)

/-- C8: client-side content limits.  `createPost` refuses whenever the
categorized content `[category] content` exceeds 280 characters or is blank;
`createReply` refuses reply content over 280 characters or blank;
`reportPost` and `reportReply` refuse report reasons over 100 characters or
blank.  A refusal means the guard chain returns an early error and no
instruction is built or sent. -/
theorem content_limits_gate :
    (∀ (pk : Option String) (content : String) (forumReady : Bool) (category : String),
      (280 < ("[" ++ category ++ "] " ++ content).length ∨
        jsTrimEmpty ("[" ++ category ++ "] " ++ content) = true) →
      proceeds (createPostGate pk content forumReady category) = false) ∧
    (∀ (pk : Option String) (rc : Option String) (forumReady postFound : Bool),
      (280 < (rc.getD "").length ∨ jsTrimEmpty (rc.getD "") = true) →
      proceeds (createReplyGate pk rc forumReady postFound) = false) ∧
    (∀ (pk : Option String) (reason : String) (forumReady postFound : Bool),
      (100 < reason.length ∨ jsTrimEmpty reason = true) →
      proceeds (reportPostGate pk reason forumReady postFound) = false) ∧
    (∀ (pk : Option String) (reason : String) (forumReady replyFound : Bool),
      (100 < reason.length ∨ jsTrimEmpty reason = true) →
      proceeds (reportReplyGate pk reason forumReady replyFound) = false) := by
  refine ⟨?_, ?_, ?_, ?_⟩
  · intro pk content forumReady category h
    cases pk with
    | none => simp [createPostGate, proceeds]
    | some p =>
      simp only [createPostGate]
      split_ifs with h1 h2 h3 h4
      · simp [proceeds]
      · simp [proceeds]
      · simp [proceeds]
      · simp [proceeds]
      · rcases h with h | h
        · exact absurd h h3
        · exact absurd h (by simpa using h4)
  · intro pk rc forumReady postFound h
    simp only [createReplyGate]
    split_ifs with h1 h2 h3 h4
    · simp [proceeds]
    · simp [proceeds]
    · simp [proceeds]
    · simp [proceeds]
    · rcases h with h | h
      · exact absurd h h3
      · exact absurd h (by simpa using h4)
  · intro pk reason forumReady postFound h
    simp only [reportPostGate]
    split_ifs with h1 h2 h3 h4
    · simp [proceeds]
    · simp [proceeds]
    · simp [proceeds]
    · simp [proceeds]
    · rcases h with h | h
      · exact absurd h h3
      · exact absurd h (by simpa using h4)
  · intro pk reason forumReady replyFound h
    simp only [reportReplyGate]
    split_ifs with h1 h2 h3 h4
    · simp [proceeds]
    · simp [proceeds]
    · simp [proceeds]
    · simp [proceeds]
    · rcases h with h | h
      · exact absurd h h3
      · exact absurd h (by simpa using h4)

/-- Witness for C8: a whitespace-only reply is refused. -/
theorem content_limits_gate_witness :
    proceeds (createReplyGate (some "A") (some " ") true true) = false :=
  content_limits_gate.2.1 (some "A") (some " ") true true (Or.inr (by decide))

/-- C9: moderation gating.  `deletePost`, `deleteReply`, `resolveReport` and
`closeReport` proceed only for the hardcoded admin key or one of the three
hardcoded moderator keys; `closeForum` proceeds only for exactly the admin
key, so no moderator can close the forum; posting in the Announcements
category likewise proceeds only for admin or moderators. -/
theorem moderation_gating :
    (∀ (pk : Option String) (fr : Bool), proceeds (deletePostGate pk fr) = true →
      ∃ p, pk = some p ∧ (isModerator p = true ∨ p = ADMIN_PUBLIC_KEY)) ∧
    (∀ (pk : Option String) (fr : Bool), proceeds (deleteReplyGate pk fr) = true →
      ∃ p, pk = some p ∧ (isModerator p = true ∨ p = ADMIN_PUBLIC_KEY)) ∧
    (∀ (pk : Option String) (fr : Bool) (action : String),
      proceeds (resolveReportGate pk fr action) = true →
      ∃ p, pk = some p ∧ (isModerator p = true ∨ p = ADMIN_PUBLIC_KEY)) ∧
    (∀ (pk : Option String) (fr : Bool), proceeds (closeReportGate pk fr) = true →
      ∃ p, pk = some p ∧ (isModerator p = true ∨ p = ADMIN_PUBLIC_KEY)) ∧
    (∀ (pk : Option String) (fr : Bool), proceeds (closeForumGate pk fr) = true →
      pk = some ADMIN_PUBLIC_KEY) ∧
    (∀ m ∈ MODERATOR_PUBLIC_KEYS, ∀ fr : Bool,
      proceeds (closeForumGate (some m) fr) = false) ∧
    (∀ (pk : Option String) (content : String) (fr : Bool),
      proceeds (createPostGate pk content fr "Announcements") = true →
      ∃ p, pk = some p ∧ (isModerator p = true ∨ p = ADMIN_PUBLIC_KEY)) := by
  refine ⟨?_, ?_, ?_, ?_, ?_, ?_, ?_⟩
  · intro pk fr h
    cases pk with
    | none => simp [deletePostGate, proceeds] at h
    | some p =>
      refine ⟨p, rfl, ?_⟩
      simp only [deletePostGate] at h
      split_ifs at h with h1 h2
      · simp [proceeds] at h
      · simp [proceeds] at h
      · push_neg at h2
        by_cases hm : isModerator p = true
        · exact Or.inl hm
        · exact Or.inr (h2 (by simpa using hm))
  · intro pk fr h
    cases pk with
    | none => simp [deleteReplyGate, proceeds] at h
    | some p =>
      refine ⟨p, rfl, ?_⟩
      simp only [deleteReplyGate] at h
      split_ifs at h with h1 h2
      · simp [proceeds] at h
      · simp [proceeds] at h
      · push_neg at h2
        by_cases hm : isModerator p = true
        · exact Or.inl hm
        · exact Or.inr (h2 (by simpa using hm))
  · intro pk fr action h
    cases pk with
    | none => simp [resolveReportGate, proceeds] at h
    | some p =>
      refine ⟨p, rfl, ?_⟩
      simp only [resolveReportGate] at h
      split_ifs at h with h1 h2 h3
      · simp [proceeds] at h
      · simp [proceeds] at h
      · simp [proceeds] at h
      · push_neg at h2
        by_cases hm : isModerator p = true
        · exact Or.inl hm
        · exact Or.inr (h2 (by simpa using hm))
  · intro pk fr h
    cases pk with
    | none => simp [closeReportGate, proceeds] at h
    | some p =>
      refine ⟨p, rfl, ?_⟩
      simp only [closeReportGate] at h
      split_ifs at h with h1 h2
      · simp [proceeds] at h
      · simp [proceeds] at h
      · push_neg at h2
        by_cases hm : isModerator p = true
        · exact Or.inl hm
        · exact Or.inr (h2 (by simpa using hm))
  · intro pk fr h
    cases pk with
    | none => simp [closeForumGate, proceeds] at h
    | some p =>
      simp only [closeForumGate] at h
      split_ifs at h with h1 h2
      · simp [proceeds] at h
      · simp [proceeds] at h
      · push_neg at h2
        rw [h2]
  · intro m hm fr
    fin_cases hm <;> cases fr <;> decide
  · intro pk content fr h
    cases pk with
    | none => simp [createPostGate, proceeds] at h
    | some p =>
      refine ⟨p, rfl, ?_⟩
      simp only [createPostGate] at h
      split_ifs at h with h1 h2 h3 h4
      · simp [proceeds] at h
      · simp [proceeds] at h
      · simp [proceeds] at h
      · simp [proceeds] at h
      · push_neg at h2
        by_cases hm : isModerator p = true
        · exact Or.inl hm
        · exact Or.inr (h2 trivial (by simpa using hm))

/-- Witness for C9: the first hardcoded moderator key cannot close the
forum. -/
theorem moderation_gating_witness :
    proceeds (closeForumGate (some "7XeCnBHGWYxpVfd9zCoU3z8FtiSwoGZYk41jcE2sgBxW") true) =
      false :=
  moderation_gating.2.2.2.2.2.1 "7XeCnBHGWYxpVfd9zCoU3z8FtiSwoGZYk41jcE2sgBxW"
    (by decide) true

end Solcial
